import Mathlib

/-!
# Verification of the MySQL MCP server core

A shallow embedding of the request dispatch and SQL-safety gate of the
MySQL MCP server: the query-shape validator, the migration statement
tokenizer, the tool dispatcher and the request router.  Strings are
modelled as `List Char`; the external database gateway is modelled as a
pure oracle whose invocations are traced; machine-level concerns of the
JavaScript runtime (property access on `undefined`, truthiness,
destructuring) are modelled explicitly.
-/

namespace MySqlMcp

/-- Single-quote character, written by code point to keep source plain. -/
def sqChar : Char := Char.ofNat 39

/-- Backtick character, written by code point to keep source plain. -/
def bqChar : Char := Char.ofNat 96

/-- JavaScript `String.prototype.trim`: strip leading and trailing
whitespace. -/
def jsTrim (s : List Char) : List Char :=
  ((s.dropWhile Char.isWhitespace).reverse.dropWhile Char.isWhitespace).reverse

/-- JavaScript `String.prototype.toLowerCase`, per character. -/
def jsToLower (s : List Char) : List Char :=
  s.map Char.toLower

/-- JavaScript `String.prototype.includes`: naive substring containment. -/
def listContains (pat : List Char) : List Char → Bool
  | [] => pat.isEmpty
  | c :: t => pat.isPrefixOf (c :: t) || listContains pat t

/-- JSON / JavaScript values as delivered by `JSON.parse`, together with
`undefined` (the result of reading a missing property). -/
inductive Js where
  | undef : Js
  | null : Js
  | bool : Bool → Js
  | num : Int → Js
  | str : List Char → Js
  | arr : List Js → Js
  | obj : List (List Char × Js) → Js

/-- JavaScript truthiness. -/
def Js.truthy : Js → Bool
  | .undef => false
  | .null => false
  | .bool b => b
  | .num n => n != 0
  | .str s => !s.isEmpty
  | .arr _ => true
  | .obj _ => true

/-- `typeof v === 'object'` (true for `null`, arrays and objects). -/
def Js.typeofIsObject : Js → Bool
  | .null => true
  | .arr _ => true
  | .obj _ => true
  | _ => false

/-- `typeof v === 'string'`. -/
def Js.isString : Js → Bool
  | .str _ => true
  | _ => false

/-- The character list of a string value (empty for non-strings). -/
def Js.asChars : Js → List Char
  | .str s => s
  | _ => []

/-- Association-list lookup for object fields. -/
def jsLookup (k : List Char) : List (List Char × Js) → Js
  | [] => .undef
  | (k', v) :: rest => if k' == k then v else jsLookup k rest

/-- Property read `v.k`: `undefined` when absent or when the base value
has no such property (numbers, strings, booleans). -/
def Js.getField (v : Js) (k : List Char) : Js :=
  match v with
  | .obj fs => jsLookup k fs
  | _ => Js.undef

/-- `v === "lit"` for a string literal. -/
def Js.strEq (v : Js) (s : List Char) : Bool :=
  match v with
  | .str t => t == s
  | _ => false

/-- Error codes of the fixed JSON-RPC taxonomy. -/
inductive ErrorCode where
  | ParseError
  | InvalidRequest
  | MethodNotFound
  | InvalidParams
  | InternalError
deriving Repr, DecidableEq

/-- Numeric value of each error code. -/
def ErrorCode.toInt : ErrorCode → Int
  | .ParseError => -32700
  | .InvalidRequest => -32600
  | .MethodNotFound => -32601
  | .InvalidParams => -32602
  | .InternalError => -32603

/-- `McpError`: code plus message. -/
structure McpError where
  code : ErrorCode
  message : List Char
deriving Repr, DecidableEq

/-- The three query intents of `validateSqlQuery`
(`'select' | 'write' | 'create_table'` in the source). -/
inductive QType where
  | select
  | write
  | createTable
deriving Repr, DecidableEq

/-- Embedding of `validateSqlQuery`: throws (`Except.error`) an
`McpError` on rejection, returns unit on acceptance.  The argument is a
`Js` value because the dispatcher passes the raw `query` property. -/
def validateSqlQuery (query : Js) (expectedType : QType) : Except McpError Unit :=
  if !query.truthy || !query.isString then
    .error ⟨.InvalidParams, "Query must be a non-empty string".toList⟩
  else
    let trimmedQuery := jsToLower (jsTrim query.asChars)
    match expectedType with
    | .select =>
      if !("select".toList.isPrefixOf trimmedQuery) then
        .error ⟨.InvalidParams, "Only SELECT queries are allowed with read_query".toList⟩
      else if listContains "drop ".toList trimmedQuery ||
          listContains "delete ".toList trimmedQuery ||
          listContains "update ".toList trimmedQuery ||
          listContains "insert ".toList trimmedQuery ||
          listContains "alter ".toList trimmedQuery ||
          listContains "create ".toList trimmedQuery then
        .error ⟨.InvalidParams,
          "The query contains potentially harmful operations. Only SELECT statements are allowed with read_query.".toList⟩
      else
        .ok ()
    | .write =>
      if "select".toList.isPrefixOf trimmedQuery then
        .error ⟨.InvalidParams,
          "SELECT queries are not allowed with write_query, use read_query instead".toList⟩
      else if !("insert ".toList.isPrefixOf trimmedQuery) &&
          !("update ".toList.isPrefixOf trimmedQuery) &&
          !("delete ".toList.isPrefixOf trimmedQuery) then
        .error ⟨.InvalidParams,
          "Only INSERT, UPDATE, and DELETE operations are allowed with write_query".toList⟩
      else if listContains "drop ".toList trimmedQuery ||
          listContains "alter ".toList trimmedQuery ||
          listContains "create ".toList trimmedQuery then
        .error ⟨.InvalidParams,
          "The query contains potentially harmful operations. Only INSERT, UPDATE, and DELETE are allowed with write_query.".toList⟩
      else
        .ok ()
    | .createTable =>
      if !("create table".toList.isPrefixOf trimmedQuery) then
        .error ⟨.InvalidParams,
          "Only CREATE TABLE statements are allowed with create_table".toList⟩
      else
        .ok ()

/-- Acceptance as a boolean. -/
def exceptAccepts {ε α : Type} : Except ε α → Bool
  | .ok _ => true
  | .error _ => false

/-- The acceptance rules of the specification's intent table,
stated on the trimmed, lower-cased query (a second definition written
from the spec's words, to be compared with `validateSqlQuery`). -/
def intentRulesAccept (t : QType) (q : List Char) : Bool :=
  match t with
  | .select =>
    "select".toList.isPrefixOf q &&
    !(listContains "drop ".toList q || listContains "delete ".toList q ||
      listContains "update ".toList q || listContains "insert ".toList q ||
      listContains "alter ".toList q || listContains "create ".toList q)
  | .write =>
    !("select".toList.isPrefixOf q) &&
    ("insert ".toList.isPrefixOf q || "update ".toList.isPrefixOf q ||
     "delete ".toList.isPrefixOf q) &&
    !(listContains "drop ".toList q || listContains "alter ".toList q ||
      listContains "create ".toList q)
  | .createTable => "create table".toList.isPrefixOf q

/-! ## Statement tokenizer of `runMigrations`

The source scans the script character by character with mutable state
(`statements`, `currentStatement`, `inComment`, `inString`,
`stringDelimiter`); the loop index manipulation (`i++` after a comment
delimiter, the inner `while` that skips a line comment) is rendered as
recursion on the remaining character list. -/

/-- Mutable scanner state of the statement-splitting loop. -/
structure ScanState where
  statements : List (List Char)
  current : List Char
  inComment : Bool
  inString : Bool
  stringDelimiter : Char

/-- One pass of the `for` loop of `runMigrations` over the remaining
characters.  The `/*`, `*/` branches consume the second delimiter
character (`i++` then `continue`); the `--` branch drops up to and
including the end of line (inner `while` plus the loop increment). -/
def scanAux : List Char → ScanState → ScanState
  | [], st => st
  | c :: rest, st =>
    let st1 :=
      if !st.inComment && (c == sqChar || c == '"' || c == bqChar) then
        if !st.inString then
          { st with inString := true, stringDelimiter := c }
        else if c == st.stringDelimiter then
          { st with inString := false }
        else st
      else st
    if !st1.inString && c == '/' && rest.head? == some '*' && !st1.inComment then
      scanAux rest.tail { st1 with inComment := true }
    else if !st1.inString && c == '*' && rest.head? == some '/' && st1.inComment then
      scanAux rest.tail { st1 with inComment := false }
    else if !st1.inString && c == '-' && rest.head? == some '-' && !st1.inComment then
      scanAux ((rest.dropWhile (fun ch => ch != '\n')).tail) st1
    else if st1.inComment then
      scanAux rest st1
    else
      let cur := st1.current ++ [c]
      if c == ';' && !st1.inString then
        let t := jsTrim cur
        scanAux rest { st1 with
          statements := st1.statements ++ (if t.isEmpty then [] else [t]),
          current := [] }
      else
        scanAux rest { st1 with current := cur }
termination_by l _ => l.length
decreasing_by
  all_goals simp only [List.length_cons]
  · exact Nat.lt_succ_of_le (List.length_tail _ ▸ Nat.sub_le _ _)
  · exact Nat.lt_succ_of_le (List.length_tail _ ▸ Nat.sub_le _ _)
  · exact Nat.lt_succ_of_le (Nat.le_trans
      (List.length_tail _ ▸ Nat.sub_le _ _)
      ((List.dropWhile_suffix _).sublist.length_le))
  · exact Nat.lt_succ_self _
  · exact Nat.lt_succ_self _
  · exact Nat.lt_succ_self _

/-- Fuel-indexed twin of `scanAux` (identical branch structure,
structurally recursive on the fuel) used to evaluate the scanner on
concrete scripts; `scanAuxFuel_eq` shows it agrees with `scanAux`
whenever the fuel covers the input length. -/
def scanAuxFuel : Nat → List Char → ScanState → ScanState
  | 0, _, st => st
  | _ + 1, [], st => st
  | fuel + 1, c :: rest, st =>
    let st1 :=
      if !st.inComment && (c == sqChar || c == '"' || c == bqChar) then
        if !st.inString then
          { st with inString := true, stringDelimiter := c }
        else if c == st.stringDelimiter then
          { st with inString := false }
        else st
      else st
    if !st1.inString && c == '/' && rest.head? == some '*' && !st1.inComment then
      scanAuxFuel fuel rest.tail { st1 with inComment := true }
    else if !st1.inString && c == '*' && rest.head? == some '/' && st1.inComment then
      scanAuxFuel fuel rest.tail { st1 with inComment := false }
    else if !st1.inString && c == '-' && rest.head? == some '-' && !st1.inComment then
      scanAuxFuel fuel ((rest.dropWhile (fun ch => ch != '\n')).tail) st1
    else if st1.inComment then
      scanAuxFuel fuel rest st1
    else
      let cur := st1.current ++ [c]
      if c == ';' && !st1.inString then
        let t := jsTrim cur
        scanAuxFuel fuel rest { st1 with
          statements := st1.statements ++ (if t.isEmpty then [] else [t]),
          current := [] }
      else
        scanAuxFuel fuel rest { st1 with current := cur }

/-- The statement splitter of `runMigrations`: run the scanner from the
initial state and flush a trailing non-empty trimmed statement. -/
def tokenizeScript (setupSql : List Char) : List (List Char) :=
  let st := scanAux setupSql
    { statements := [], current := [], inComment := false,
      inString := false, stringDelimiter := Char.ofNat 0 }
  let trimmedLast := jsTrim st.current
  st.statements ++ (if trimmedLast.isEmpty then [] else [trimmedLast])

/-- The migration execution filter: a statement is skipped exactly when
its lower-cased text contains `create database` or contains `use `
(`statement.toLowerCase().includes(...)` in the source). -/
def shouldSkipStatement (statement : List Char) : Bool :=
  listContains "create database".toList (jsToLower statement) ||
  listContains "use ".toList (jsToLower statement)

/-- The statements `runMigrations` submits to the database gateway, in
order: the tokenized script minus the skipped statements. -/
def migrationStatements (setupSql : List Char) : List (List Char) :=
  (tokenizeScript setupSql).filter (fun st => !shouldSkipStatement st)

/-- The example input of C5: the script `SELECT ';' ;`. -/
def c5Input : List Char := "SELECT ".toList ++ [sqChar, ';', sqChar, ' ', ';']

/-- The statement the scanner actually emits for `c5Input`: the full
text `SELECT ';' ;`, terminating semicolon included. -/
def c5Actual : List Char := "SELECT ".toList ++ [sqChar, ';', sqChar, ' ', ';']

/-- The statement text asserted by C5: `SELECT ';'`. -/
def c5Claimed : List Char := "SELECT ".toList ++ [sqChar, ';', sqChar]

/-- The filter predicate asserted by C7: lower-cased text contains
`create database` or begins with `use ` (written from the claim's words,
to be compared with `shouldSkipStatement`). -/
def claimSkipRule (statement : List Char) : Bool :=
  listContains "create database".toList (jsToLower statement) ||
  "use ".toList.isPrefixOf (jsToLower statement)

/-! ## The tool dispatcher and the request router

State, envelopes and handlers of the `MySQLServer` class.  The database
pool is modelled as a pure oracle `Env.gw` mapping a statement text and
its bound parameters to either a row payload or an error message; every
invocation is recorded in a call trace.  `new Date()` is modelled by the
abstract clock `Env.now`. -/

/-- A stored business insight (`Insight` in the source).  The timestamp
is the abstract clock value at append time. -/
structure Insight where
  id : Nat
  content : Js
  timestamp : Nat

/-- The mutable server state: the insight log and its counter. -/
structure ServerState where
  insights : List Insight
  insightCounter : Nat

/-- Initial server state (field initializers of `MySQLServer`). -/
def initialState : ServerState := ⟨[], 0⟩

/-- A parsed request envelope (`McpRequest`).  Fields are `Js` values
because `JSON.parse` gives no typing guarantees. -/
structure McpRequest where
  id : Js
  method : Js
  params : Js

/-- An error descriptor of a response envelope. -/
structure ErrObj where
  code : ErrorCode
  message : List Char

/-- A response envelope (`McpResponse`); `result` and `error` are each
optional, and the handlers never set both. -/
structure McpResponse where
  jsonrpc : List Char := "2.0".toList
  id : Js
  result : Option Js := none
  error : Option ErrObj := none

/-- The environment of a request: the database gateway oracle, the
configured database name (`argv.database`) and the abstract clock. -/
structure Env where
  gw : List Char → List Js → Except (List Char) Js
  db : List Char
  now : Nat

/-- One recorded gateway invocation: statement text and bound values. -/
abbrev Call := List Char × List Js

/-- A thrown JavaScript value: an `McpError` or a plain runtime error
(`TypeError`, database driver error, ...) carrying its message. -/
inductive Thrown where
  | mcp : McpError → Thrown
  | js : List Char → Thrown

/-- Property access used in a position where JavaScript would throw a
`TypeError` on `undefined`/`null` (destructuring, `a.b.c` chains). -/
def jsGet (v : Js) (k : List Char) : Except Thrown Js :=
  match v with
  | .undef => .error (.js "Cannot read properties of undefined".toList)
  | .null => .error (.js "Cannot read properties of null".toList)
  | _ => .ok (v.getField k)

/-- Decimal rendering of a natural number. -/
def natChars (n : Nat) : List Char := (Nat.repr n).toList

/-- Decimal rendering of an integer. -/
def intChars (n : Int) : List Char := (Int.repr n).toList

mutual

/-- JavaScript string coercion of a value, as in template literals. -/
def jsTemplate : Js → List Char
  | .undef => "undefined".toList
  | .null => "null".toList
  | .bool true => "true".toList
  | .bool false => "false".toList
  | .num n => intChars n
  | .str s => s
  | .arr xs => jsTemplateList xs
  | .obj _ => "[object Object]".toList

/-- Array coercion: elements joined by commas. -/
def jsTemplateList : List Js → List Char
  | [] => []
  | [x] => jsTemplate x
  | x :: y :: rest => jsTemplate x ++ ',' :: jsTemplateList (y :: rest)

end

mutual

/-- Model of the external `JSON.stringify` (indentation not modelled;
no claim depends on the rendered text of row payloads). -/
def stringifyJs : Js → List Char
  | .undef => []
  | .null => "null".toList
  | .bool true => "true".toList
  | .bool false => "false".toList
  | .num n => intChars n
  | .str s => '"' :: s ++ ['"']
  | .arr xs => '[' :: stringifyArr xs ++ [']']
  | .obj fs => Char.ofNat 123 :: stringifyFields fs ++ [Char.ofNat 125]

/-- Array elements joined by commas. -/
def stringifyArr : List Js → List Char
  | [] => []
  | [x] => stringifyJs x
  | x :: y :: rest => stringifyJs x ++ ',' :: stringifyArr (y :: rest)

/-- Object fields joined by commas. -/
def stringifyFields : List (List Char × Js) → List Char
  | [] => []
  | [(k, v)] => '"' :: k ++ '"' :: ':' :: stringifyJs v
  | (k, v) :: f :: rest =>
    '"' :: k ++ '"' :: ':' :: stringifyJs v ++ ',' :: stringifyFields (f :: rest)

end

/-- A `content: [{type: text, text: t}]` tool result payload. -/
def textContent (t : List Char) : Js :=
  .obj [("content".toList, .arr [.obj [("type".toList, .str "text".toList),
    ("text".toList, .str t)]])]

/-- The tool-error payload produced by the dispatcher's catch block for
a non-`McpError` failure: a result flagged `isError` whose text is
`Error: ` plus the thrown message. -/
def isErrorContent (m : List Char) : Js :=
  .obj [("content".toList, .arr [.obj [("type".toList, .str "text".toList),
    ("text".toList, .str ("Error: ".toList ++ m))]]),
    ("isError".toList, .bool true)]

/-- An error envelope with the given correlation identifier. -/
def errorEnvelope (ident : Js) (code : ErrorCode) (m : List Char) : McpResponse :=
  { id := ident, error := some ⟨code, m⟩ }

/-- The `read_query` case of `handleToolCall`. -/
def readQueryCase (req : McpRequest) (st : ServerState) (env : Env) :
    Except Thrown McpResponse × ServerState × List Call :=
  let args := (req.params).getField "arguments".toList
  if !args.truthy || !args.typeofIsObject then
    (.error (.mcp ⟨.InvalidParams,
      "Invalid arguments: Expected an object with a \"query\" property".toList⟩), st, [])
  else
    let query := args.getField "query".toList
    match validateSqlQuery query .select with
    | .error e => (.error (.mcp e), st, [])
    | .ok _ =>
      let qc := query.asChars
      match env.gw qc [] with
      | .ok rows =>
        (.ok { id := req.id, result := some (textContent (stringifyJs rows)) },
          st, [(qc, [])])
      | .error m =>
        (.error (.mcp ⟨.InternalError, "Database error: ".toList ++ m⟩),
          st, [(qc, [])])

/-- The `write_query` case of `handleToolCall`. -/
def writeQueryCase (req : McpRequest) (st : ServerState) (env : Env) :
    Except Thrown McpResponse × ServerState × List Call :=
  let args := (req.params).getField "arguments".toList
  if !args.truthy || !args.typeofIsObject then
    (.error (.mcp ⟨.InvalidParams,
      "Invalid arguments: Expected an object with a \"query\" property".toList⟩), st, [])
  else
    let query := args.getField "query".toList
    match validateSqlQuery query .write with
    | .error e => (.error (.mcp e), st, [])
    | .ok _ =>
      let qc := query.asChars
      match env.gw qc [] with
      | .ok result =>
        (.ok { id := req.id, result := some (textContent (stringifyJs
          (.obj [("affected_rows".toList,
            result.getField "affectedRows".toList)]))) }, st, [(qc, [])])
      | .error m =>
        (.error (.mcp ⟨.InternalError, "Database error: ".toList ++ m⟩),
          st, [(qc, [])])

/-- The `create_table` case of `handleToolCall`. -/
def createTableCase (req : McpRequest) (st : ServerState) (env : Env) :
    Except Thrown McpResponse × ServerState × List Call :=
  let args := (req.params).getField "arguments".toList
  if !args.truthy || !args.typeofIsObject then
    (.error (.mcp ⟨.InvalidParams,
      "Invalid arguments: Expected an object with a \"query\" property".toList⟩), st, [])
  else
    let query := args.getField "query".toList
    match validateSqlQuery query .createTable with
    | .error e => (.error (.mcp e), st, [])
    | .ok _ =>
      let qc := query.asChars
      match env.gw qc [] with
      | .ok _ =>
        (.ok { id := req.id,
               result := some (textContent "Table created successfully".toList) },
          st, [(qc, [])])
      | .error m =>
        (.error (.mcp ⟨.InternalError, "Database error: ".toList ++ m⟩),
          st, [(qc, [])])

/-- Statement text of the `list_tables` catalog query. -/
def listTablesQueryText : List Char :=
  "SELECT table_name FROM information_schema.tables WHERE table_schema = ?".toList

/-- The `list_tables` case of `handleToolCall`.  Note: the source has no
inner try/catch here, so a gateway failure propagates as a plain error
to the dispatcher's catch block. -/
def listTablesCase (req : McpRequest) (st : ServerState) (env : Env) :
    Except Thrown McpResponse × ServerState × List Call :=
  match env.gw listTablesQueryText [.str env.db] with
  | .ok rows =>
    match rows with
    | .arr rs =>
      let tables := rs.map (fun row =>
        let t := row.getField "table_name".toList
        if t.truthy then t else row.getField "TABLE_NAME".toList)
      (.ok { id := req.id,
             result := some (textContent (stringifyJs (.arr tables))) },
        st, [(listTablesQueryText, [.str env.db])])
    | _ =>
      (.error (.js "rows.map is not a function".toList),
        st, [(listTablesQueryText, [.str env.db])])
  | .error m =>
    (.error (.js m), st, [(listTablesQueryText, [.str env.db])])

/-- Statement text of the `describe_table` catalog query. -/
def describeTableQueryText : List Char :=
  ("SELECT column_name, data_type, is_nullable, column_default " ++
   "FROM information_schema.columns " ++
   "WHERE table_schema = ? AND table_name = ?").toList

/-- The `describe_table` case of `handleToolCall`.  The source checks no
arguments: the destructuring itself throws when `arguments` is absent,
and a gateway failure propagates as a plain error (no inner try/catch). -/
def describeTableCase (req : McpRequest) (st : ServerState) (env : Env) :
    Except Thrown McpResponse × ServerState × List Call :=
  match jsGet ((req.params).getField "arguments".toList) "table_name".toList with
  | .error t => (.error t, st, [])
  | .ok tname =>
    match env.gw describeTableQueryText [.str env.db, tname] with
    | .ok rows =>
      (.ok { id := req.id, result := some (textContent (stringifyJs rows)) },
        st, [(describeTableQueryText, [.str env.db, tname])])
    | .error m =>
      (.error (.js m), st, [(describeTableQueryText, [.str env.db, tname])])

/-- The `append_insight` case of `handleToolCall`: increments the
counter, appends the insight, answers with a confirmation referencing
the new identifier.  No gateway access. -/
def appendInsightCase (req : McpRequest) (st : ServerState) (env : Env) :
    Except Thrown McpResponse × ServerState × List Call :=
  match jsGet ((req.params).getField "arguments".toList) "insight".toList with
  | .error t => (.error t, st, [])
  | .ok insight =>
    let counter := st.insightCounter + 1
    let newInsight : Insight := ⟨counter, insight, env.now⟩
    (.ok { id := req.id, result := some (textContent
        ("Insight #".toList ++ natChars counter ++ " added to memo".toList)) },
      ⟨st.insights ++ [newInsight], counter⟩, [])

/-- The tool dispatch of `handleToolCall`: read `request.params.name`
(throwing when `params` is absent) and run the named tool. -/
def toolCallBody (req : McpRequest) (st : ServerState) (env : Env) :
    Except Thrown McpResponse × ServerState × List Call :=
  match jsGet req.params "name".toList with
  | .error t => (.error t, st, [])
  | .ok nm =>
    if nm.strEq "read_query".toList then readQueryCase req st env
    else if nm.strEq "write_query".toList then writeQueryCase req st env
    else if nm.strEq "create_table".toList then createTableCase req st env
    else if nm.strEq "list_tables".toList then listTablesCase req st env
    else if nm.strEq "describe_table".toList then describeTableCase req st env
    else if nm.strEq "append_insight".toList then appendInsightCase req st env
    else (.error (.mcp ⟨.MethodNotFound,
      "Unknown tool: ".toList ++ jsTemplate nm⟩), st, [])

/-- `handleToolCall` with its catch block: an `McpError` is rethrown to
the router, any other thrown value becomes a result envelope flagged
`isError`. -/
def handleToolCall (req : McpRequest) (st : ServerState) (env : Env) :
    Except McpError McpResponse × ServerState × List Call :=
  match toolCallBody req st env with
  | (.ok resp, st2, calls) => (.ok resp, st2, calls)
  | (.error (.mcp e), st2, calls) => (.error e, st2, calls)
  | (.error (.js m), st2, calls) =>
    (.ok { id := req.id, result := some (isErrorContent m) }, st2, calls)

/-- The static `mcp.listTools` descriptor payload. -/
def toolDescriptors : Js := .arr [
  .obj [("name".toList, .str "read_query".toList),
    ("description".toList,
      .str "Execute a SELECT query to read data from the database".toList),
    ("inputSchema".toList, .obj [
      ("type".toList, .str "object".toList),
      ("properties".toList, .obj [
        ("query".toList, .obj [
          ("type".toList, .str "string".toList),
          ("description".toList, .str "The SELECT SQL query to execute".toList)])]),
      ("required".toList, .arr [.str "query".toList])])],
  .obj [("name".toList, .str "write_query".toList),
    ("description".toList,
      .str "Execute an INSERT, UPDATE, or DELETE query".toList),
    ("inputSchema".toList, .obj [
      ("type".toList, .str "object".toList),
      ("properties".toList, .obj [
        ("query".toList, .obj [
          ("type".toList, .str "string".toList),
          ("description".toList, .str "The SQL modification query".toList)])]),
      ("required".toList, .arr [.str "query".toList])])],
  .obj [("name".toList, .str "create_table".toList),
    ("description".toList, .str "Create a new table in the database".toList),
    ("inputSchema".toList, .obj [
      ("type".toList, .str "object".toList),
      ("properties".toList, .obj [
        ("query".toList, .obj [
          ("type".toList, .str "string".toList),
          ("description".toList, .str "The CREATE TABLE SQL statement".toList)])]),
      ("required".toList, .arr [.str "query".toList])])],
  .obj [("name".toList, .str "list_tables".toList),
    ("description".toList,
      .str "Get a list of all tables in the database".toList),
    ("inputSchema".toList, .obj [
      ("type".toList, .str "object".toList),
      ("properties".toList, .obj [])])],
  .obj [("name".toList, .str "describe_table".toList),
    ("description".toList,
      .str "View schema information for a specific table".toList),
    ("inputSchema".toList, .obj [
      ("type".toList, .str "object".toList),
      ("properties".toList, .obj [
        ("table_name".toList, .obj [
          ("type".toList, .str "string".toList),
          ("description".toList, .str "Name of table to describe".toList)])]),
      ("required".toList, .arr [.str "table_name".toList])])],
  .obj [("name".toList, .str "append_insight".toList),
    ("description".toList,
      .str "Add a new business insight to the memo".toList),
    ("inputSchema".toList, .obj [
      ("type".toList, .str "object".toList),
      ("properties".toList, .obj [
        ("insight".toList, .obj [
          ("type".toList, .str "string".toList),
          ("description".toList,
            .str "Business insight discovered from data analysis".toList)])]),
      ("required".toList, .arr [.str "insight".toList])])]]

/-- The static `mcp.listResources` descriptor payload. -/
def resourceDescriptors : Js := .arr [
  .obj [("uri".toList, .str "memo://insights".toList),
    ("name".toList, .str "Business Insights Memo".toList),
    ("mimeType".toList, .str "text/plain".toList),
    ("description".toList,
      .str "A continuously updated memo of business insights discovered during analysis".toList)]]

/-- One rendered memo block for a stored insight (the `forEach` body of
the memo construction; `toISOString` of the abstract clock is rendered
as its decimal value). -/
def insightBlock (ins : Insight) : List Char :=
  "## Insight ".toList ++ natChars ins.id ++ "\n".toList ++
  "*".toList ++ natChars ins.timestamp ++ "*\n\n".toList ++
  jsTemplate ins.content ++ "\n\n".toList

/-- The full insights memo text. -/
def memoText (insights : List Insight) : List Char :=
  let header := "# Business Insights Memo\n\n".toList
  if insights.isEmpty then
    header ++ "No insights have been discovered yet.\n".toList
  else
    insights.foldl (fun acc ins => acc ++ insightBlock ins) header

/-- `handleRequest`: the method router together with its catch block
(an `McpError` becomes an error envelope with its code; a plain thrown
error becomes an `InternalError` envelope). -/
def handleRequest (req : McpRequest) (st : ServerState) (env : Env) :
    McpResponse × ServerState × List Call :=
  if req.method.strEq "mcp.listTools".toList then
    ({ id := req.id,
       result := some (.obj [("tools".toList, toolDescriptors)]) }, st, [])
  else if req.method.strEq "mcp.listResources".toList then
    ({ id := req.id,
       result := some (.obj [("resources".toList, resourceDescriptors)]) }, st, [])
  else if req.method.strEq "mcp.listResourceTemplates".toList then
    ({ id := req.id,
       result := some (.obj [("resourceTemplates".toList, .arr [])]) }, st, [])
  else if req.method.strEq "mcp.readResource".toList then
    match jsGet req.params "uri".toList with
    | .error (.js m) => (errorEnvelope req.id .InternalError m, st, [])
    | .error (.mcp e) => (errorEnvelope req.id e.code e.message, st, [])
    | .ok uri =>
      if uri.strEq "memo://insights".toList then
        ({ id := req.id, result := some (.obj [("contents".toList, .arr [
          .obj [("uri".toList, uri),
            ("mimeType".toList, .str "text/plain".toList),
            ("text".toList, .str (memoText st.insights))]])]) }, st, [])
      else
        (errorEnvelope req.id .InvalidRequest
          ("Unknown resource: ".toList ++ jsTemplate uri), st, [])
  else if req.method.strEq "mcp.callTool".toList then
    match handleToolCall req st env with
    | (.ok resp, st2, calls) => (resp, st2, calls)
    | (.error e, st2, calls) =>
      (errorEnvelope req.id e.code e.message, st2, calls)
  else
    (errorEnvelope req.id .MethodNotFound
      ("Unknown method: ".toList ++ jsTemplate req.method), st, [])

/-- One inbound transport line, after `JSON.parse`: either a parsed
request or a parse failure with the thrown message. -/
inductive LineInput where
  | parsed : McpRequest → LineInput
  | unparsable : List Char → LineInput

/-- The `line` handler of `run`: parsed requests go to `handleRequest`;
a parse failure is answered with identifier `"unknown"` and code
`ParseError`. -/
def handleLine (l : LineInput) (st : ServerState) (env : Env) :
    McpResponse × ServerState × List Call :=
  match l with
  | .parsed req => handleRequest req st env
  | .unparsable m =>
    ({ id := .str "unknown".toList, error := some ⟨.ParseError, m⟩ }, st, [])

/-- An `mcp.callTool` request envelope for a named tool and arguments. -/
def callToolRequest (ident : Js) (toolName : List Char) (args : Js) : McpRequest :=
  ⟨ident, .str "mcp.callTool".toList,
    .obj [("name".toList, .str toolName), ("arguments".toList, args)]⟩

/-- Arguments payload `\x7b query: q \x7d`. -/
def queryArgs (q : List Char) : Js := .obj [("query".toList, .str q)]

/-- Arguments payload `\x7b insight: c \x7d`. -/
def insightArgs (c : Js) : Js := .obj [("insight".toList, c)]

/-- Iterated `append_insight` calls through the request router. -/
def runAppends (env : Env) : ServerState → List Js → ServerState
  | st, [] => st
  | st, c :: rest =>
    runAppends env
      (handleRequest (callToolRequest (.num 0) "append_insight".toList
        (insightArgs c)) st env).2.1 rest

/-- The identifiers assigned by iterated `append_insight` calls, in
order (each call's new counter value, which is also the identifier its
confirmation text references). -/
def runAppendsIds (env : Env) : ServerState → List Js → List Nat
  | _, [] => []
  | st, c :: rest =>
    let st2 := (handleRequest (callToolRequest (.num 0)
      "append_insight".toList (insightArgs c)) st env).2.1
    st2.insightCounter :: runAppendsIds env st2 rest

/-- The identifiers of the stored insights, in log order. -/
def insightIds (st : ServerState) : List Nat :=
  st.insights.map (fun i => i.id)

/-- A stub environment whose gateway answers every statement with a null
row payload (used to witness that rejected calls never reach it). -/
def stubEnv : Env := ⟨fun _ _ => .ok .null, "db".toList, 0⟩

/-- An environment whose gateway fails every statement with the given
message. -/
def failEnv (m db : List Char) (now : Nat) : Env :=
  ⟨fun _ _ => .error m, db, now⟩

/-- A `describe_table` call whose `arguments` are missing entirely. -/
def describeNoArgsRequest : McpRequest :=
  ⟨Js.num 7, .str "mcp.callTool".toList,
    .obj [("name".toList, .str "describe_table".toList)]⟩

/-- An `append_insight` call whose `arguments` object lacks the
declared-required `insight` property. -/
def appendNoInsightRequest : McpRequest :=
  ⟨Js.num 8, .str "mcp.callTool".toList,
    .obj [("name".toList, .str "append_insight".toList),
      ("arguments".toList, .obj [])]⟩

/-- Array indexing on a `Js` value (`undefined` out of range). -/
def jsIndex (v : Js) (n : Nat) : Js :=
  match v with
  | .arr xs => xs.getD n Js.undef
  | _ => Js.undef

/-- The response of a dispatcher stage echoes the given identifier
(vacuous for a thrown value, which carries no envelope). -/
def idEcho (ident : Js) : Except Thrown McpResponse → Prop
  | .ok resp => resp.id = ident
  | .error _ => True

/-- As `idEcho`, for the stage after the dispatcher's catch block. -/
def idEchoMcp (ident : Js) : Except McpError McpResponse → Prop
  | .ok resp => resp.id = ident
  | .error _ => True

/-! ## Theorems -/

/-- Every rejection of the validator carries code `InvalidParams`. -/
theorem validateSqlQuery_error_code (query : Js) (t : QType) (e : McpError)
    (h : validateSqlQuery query t = .error e) : e.code = .InvalidParams := by
  unfold validateSqlQuery at h
  split at h
  · cases h; rfl
  · cases t <;> dsimp only at h <;> (repeat' split at h) <;>
      first | (cases h; rfl) | cases h

set_option maxHeartbeats 1600000 in
/-- The fueled scanner agrees with the source scanner when the fuel
covers the remaining input. -/
theorem scanAuxFuel_eq (fuel : Nat) :
    ∀ (l : List Char) (st : ScanState), l.length ≤ fuel →
      scanAuxFuel fuel l st = scanAux l st := by
  induction fuel with
  | zero =>
    intro l st h
    have : l = [] := List.length_eq_zero.mp (Nat.le_zero.mp h)
    subst this
    simp [scanAuxFuel, scanAux]
  | succ n ih =>
    intro l st h
    cases l with
    | nil => simp [scanAuxFuel, scanAux]
    | cons c rest =>
      have hr : rest.length ≤ n := by
        simpa [List.length_cons, Nat.succ_le_succ_iff] using h
      have htl : rest.tail.length ≤ n :=
        Nat.le_trans (List.length_tail _ ▸ Nat.sub_le _ _) hr
      have hdw : ((rest.dropWhile (fun ch => ch != '\n')).tail).length ≤ n :=
        Nat.le_trans
          (Nat.le_trans (List.length_tail _ ▸ Nat.sub_le _ _)
            (List.dropWhile_suffix _).sublist.length_le) hr
      simp only [scanAuxFuel, scanAux]
      repeat' split
      all_goals first
        | rfl
        | exact ih _ _ htl
        | exact ih _ _ hdw
        | exact ih _ _ hr

/-- Claim C1: the validator, applied to the trimmed lower-cased query, accepts
exactly when the rules of the intent table hold, and every rejection is
classified as `InvalidParams`. -/
theorem claim1_validator_matches_intent_table (s : List Char) (t : QType) :
    exceptAccepts (validateSqlQuery (Js.str s) t)
        = intentRulesAccept t (jsToLower (jsTrim s))
    ∧ (∀ e : McpError, validateSqlQuery (Js.str s) t = .error e →
        e.code = ErrorCode.InvalidParams) := by
  refine ⟨?_, fun e h => validateSqlQuery_error_code _ _ _ h⟩
  by_cases hs : s = []
  · subst hs; cases t <;> rfl
  · have hne : s.isEmpty = false := by simp [List.isEmpty_iff, hs]
    cases t
    case' neg.select =>
      simp only [validateSqlQuery, intentRulesAccept, Js.truthy, Js.isString,
        Js.asChars, hne, Bool.not_false, Bool.not_true, Bool.false_or,
        Bool.or_false, Bool.or_self]
      rcases Bool.eq_false_or_eq_true
          ("select".toList.isPrefixOf (jsToLower (jsTrim s))) with ha | ha <;>
        rcases Bool.eq_false_or_eq_true
          (listContains "drop ".toList (jsToLower (jsTrim s)) ||
            listContains "delete ".toList (jsToLower (jsTrim s)) ||
            listContains "update ".toList (jsToLower (jsTrim s)) ||
            listContains "insert ".toList (jsToLower (jsTrim s)) ||
            listContains "alter ".toList (jsToLower (jsTrim s)) ||
            listContains "create ".toList (jsToLower (jsTrim s))) with hc | hc <;>
        (simp only [ha, hc]; rfl)
    case' neg.write =>
      simp only [validateSqlQuery, intentRulesAccept, Js.truthy, Js.isString,
        Js.asChars, hne, Bool.not_false, Bool.not_true, Bool.false_or,
        Bool.or_false, Bool.or_self]
      rcases Bool.eq_false_or_eq_true
          ("select".toList.isPrefixOf (jsToLower (jsTrim s))) with ha | ha <;>
        rcases Bool.eq_false_or_eq_true
          ("insert ".toList.isPrefixOf (jsToLower (jsTrim s))) with h1 | h1 <;>
        rcases Bool.eq_false_or_eq_true
          ("update ".toList.isPrefixOf (jsToLower (jsTrim s))) with h2 | h2 <;>
        rcases Bool.eq_false_or_eq_true
          ("delete ".toList.isPrefixOf (jsToLower (jsTrim s))) with h3 | h3 <;>
        rcases Bool.eq_false_or_eq_true
          (listContains "drop ".toList (jsToLower (jsTrim s)) ||
            listContains "alter ".toList (jsToLower (jsTrim s)) ||
            listContains "create ".toList (jsToLower (jsTrim s))) with hc | hc <;>
        (simp only [ha, h1, h2, h3, hc]; rfl)
    case' neg.createTable =>
      simp only [validateSqlQuery, intentRulesAccept, Js.truthy, Js.isString,
        Js.asChars, hne, Bool.not_false, Bool.not_true, Bool.false_or,
        Bool.or_false, Bool.or_self]
      rcases Bool.eq_false_or_eq_true
          ("create table".toList.isPrefixOf (jsToLower (jsTrim s))) with ha | ha <;>
        (simp only [ha]; rfl)

/-- Witness for C1 at a concrete rejected input. -/
theorem claim1_witness :
    validateSqlQuery (Js.str "DROP TABLE x".toList) QType.select =
      .error ⟨.InvalidParams,
        "Only SELECT queries are allowed with read_query".toList⟩
    ∧ (⟨.InvalidParams,
        "Only SELECT queries are allowed with read_query".toList⟩ :
          McpError).code = ErrorCode.InvalidParams :=
  ⟨rfl,
    (claim1_validator_matches_intent_table "DROP TABLE x".toList .select).2 _
      rfl⟩

/-- Evaluation form of `tokenizeScript` through the fueled scanner. -/
theorem tokenizeScript_fuel (s : List Char) :
    tokenizeScript s =
      (fun st : ScanState => st.statements ++
        (if (jsTrim st.current).isEmpty then [] else [jsTrim st.current]))
        (scanAuxFuel s.length s
          { statements := [], current := [], inComment := false,
            inString := false, stringDelimiter := Char.ofNat 0 }) := by
  unfold tokenizeScript
  rw [scanAuxFuel_eq _ _ _ (Nat.le_refl _)]

/-- Counterexample to C5 as stated: the input `SELECT ';' ;` does not
tokenize to the single statement `SELECT ';'` (the emitted statement
keeps its terminating semicolon and the space before it). -/
theorem claim5_counterexample :
    tokenizeScript c5Input ≠ [c5Claimed] := by
  rw [tokenizeScript_fuel]; decide

/-- Claim C5 amended: inside a quoted literal every character that is not the
closing delimiter — `;` included — is appended verbatim to the current
statement and produces no statement boundary; and `SELECT ';' ;`
tokenizes to the single statement `SELECT ';' ;` (terminator kept). -/
theorem claim5_string_semicolon_amended (st : ScanState) (c : Char)
    (rest : List Char) (hs : st.inString = true) (hc : st.inComment = false)
    (hd : (c == st.stringDelimiter) = false) :
    scanAux (c :: rest) st =
        scanAux rest { st with current := st.current ++ [c] }
    ∧ tokenizeScript c5Input = [c5Actual] := by
  constructor
  · conv_lhs => rw [scanAux]
    simp [hs, hc, hd]
  · rw [tokenizeScript_fuel]; decide

/-- Witness for C5's amended theorem at a concrete in-string state. -/
theorem claim5_witness :
    scanAux (';' :: []) ⟨[], "x".toList, false, true, sqChar⟩ =
      scanAux [] ⟨[], "x".toList ++ [';'], false, true, sqChar⟩
    ∧ tokenizeScript c5Input = [c5Actual] :=
  claim5_string_semicolon_amended
    ⟨[], "x".toList, false, true, sqChar⟩ ';' [] rfl rfl (by decide)

/-- Counterexample to C6 as stated: `-- comment\nSELECT 1;` does not
tokenize to the single statement `SELECT 1` (the emitted statement keeps
its terminating semicolon). -/
theorem claim6_counterexample :
    tokenizeScript "-- comment\nSELECT 1;".toList ≠ ["SELECT 1".toList] := by
  rw [tokenizeScript_fuel]; decide

/-- Dropping while not-newline over a newline-free block stops exactly
at the appended newline. -/
theorem dropWhile_no_newline (body tail2 : List Char) (hb : '\n' ∉ body) :
    (body ++ '\n' :: tail2).dropWhile (fun ch => ch != '\n') = '\n' :: tail2 := by
  induction body with
  | nil => simp [List.dropWhile]
  | cons a b ih =>
    simp only [List.mem_cons, not_or] at hb
    have ha : (a != '\n') = true := by
      simp only [bne_iff_ne, ne_eq]
      intro h
      exact hb.1 h.symm
    simp [List.dropWhile_cons, ha, ih hb.2]

/-- Dropping while not-newline consumes a newline-free list entirely. -/
theorem dropWhile_no_newline_all (body : List Char) (hb : '\n' ∉ body) :
    body.dropWhile (fun ch => ch != '\n') = [] := by
  rw [List.dropWhile_eq_nil_iff]
  intro x hx
  simp only [bne_iff_ne, ne_eq]
  intro h
  exact hb (h ▸ hx)

/-- The scanner is the identity on empty input. -/
theorem scanAux_nil (st : ScanState) : scanAux [] st = st := by
  rw [scanAux]

/-- Claim C6 amended: comment content is discarded entirely.  In a block
comment every character other than the closing `*/` delimiter — `;`
included — leaves the scanner state untouched (nothing appended, no
statement emitted), and the closing delimiter itself only clears the
comment flag; a `--` line comment discards its whole newline-free body —
any `;` in it included — through the end of the line (or through the end
of the input when no newline follows), appending nothing and emitting no
statement.  The two example scripts each tokenize to the single
statement `SELECT 1;` (comment content discarded, terminator kept). -/
theorem claim6_comment_discard_amended (st st2 : ScanState) (c : Char)
    (body tail rest : List Char)
    (hc : st.inComment = true) (hs : st.inString = false)
    (hend : (c == '*') = false ∨ (rest.head? == some '/') = false)
    (hs2 : st2.inString = false) (hc2 : st2.inComment = false)
    (hb : '\n' ∉ body) :
    scanAux (c :: rest) st = scanAux rest st
    ∧ scanAux ('*' :: '/' :: tail) st = scanAux tail { st with inComment := false }
    ∧ scanAux ('-' :: '-' :: (body ++ '\n' :: tail)) st2 = scanAux tail st2
    ∧ scanAux ('-' :: '-' :: body) st2 = st2
    ∧ tokenizeScript "-- comment\nSELECT 1;".toList = ["SELECT 1;".toList]
    ∧ tokenizeScript "/* a; b */ SELECT 1;".toList = ["SELECT 1;".toList] := by
  refine ⟨?_, ?_, ?_, ?_,
    by rw [tokenizeScript_fuel]; decide, by rw [tokenizeScript_fuel]; decide⟩
  · conv_lhs => rw [scanAux]
    rcases hend with h | h <;> simp [hc, h]
  · conv_lhs => rw [scanAux]
    simp [hc, hs]
  · conv_lhs => rw [scanAux]
    have hdrop : ('-' :: (body ++ '\n' :: tail)).dropWhile (fun ch => ch != '\n')
        = '\n' :: tail := by
      rw [List.dropWhile_cons]
      simpa using dropWhile_no_newline body tail hb
    simp [hs2, hc2, hdrop,
      (show ¬(('-' : Char) = sqChar) from by decide),
      (show ¬(('-' : Char) = bqChar) from by decide)]
  · conv_lhs => rw [scanAux]
    have hdrop : ('-' :: body).dropWhile (fun ch => ch != '\n') = [] := by
      rw [List.dropWhile_cons]
      simpa using dropWhile_no_newline_all body hb
    simp [hs2, hc2, hdrop, scanAux_nil,
      (show ¬(('-' : Char) = sqChar) from by decide),
      (show ¬(('-' : Char) = bqChar) from by decide)]

/-- Witness for C6's amended theorem: a `;` in a block-comment state, a
closing delimiter, and a line comment whose body `a; b` contains a `;`. -/
theorem claim6_witness :
    scanAux (';' :: []) ⟨[], "x".toList, true, false, Char.ofNat 0⟩ =
      scanAux [] ⟨[], "x".toList, true, false, Char.ofNat 0⟩
    ∧ scanAux ('*' :: '/' :: []) ⟨[], "x".toList, true, false, Char.ofNat 0⟩ =
      scanAux [] { (⟨[], "x".toList, true, false, Char.ofNat 0⟩ : ScanState) with
        inComment := false }
    ∧ scanAux ('-' :: '-' :: ("a; b".toList ++ '\n' :: []))
        ⟨[], "y".toList, false, false, Char.ofNat 0⟩ =
      scanAux [] ⟨[], "y".toList, false, false, Char.ofNat 0⟩
    ∧ scanAux ('-' :: '-' :: "a; b".toList)
        ⟨[], "y".toList, false, false, Char.ofNat 0⟩ =
      ⟨[], "y".toList, false, false, Char.ofNat 0⟩
    ∧ tokenizeScript "-- comment\nSELECT 1;".toList = ["SELECT 1;".toList]
    ∧ tokenizeScript "/* a; b */ SELECT 1;".toList = ["SELECT 1;".toList] :=
  claim6_comment_discard_amended
    ⟨[], "x".toList, true, false, Char.ofNat 0⟩
    ⟨[], "y".toList, false, false, Char.ofNat 0⟩
    ';' "a; b".toList [] [] rfl rfl (Or.inl (by decide)) rfl rfl (by decide)

/-- Counterexample to C7 as stated: the statement
`select warehouse from t1;` is filtered out by the code (its lower-cased
text contains `use ` inside the word `warehouse`), yet the claim's rule
says it must be submitted (it neither contains `create database` nor
begins with `use `). -/
theorem claim7_counterexample :
    migrationStatements "select warehouse from t1;".toList = []
    ∧ claimSkipRule "select warehouse from t1;".toList = false := by
  constructor
  · unfold migrationStatements
    rw [tokenizeScript_fuel]; decide
  · decide

/-- Claim C7 amended: a tokenized statement is skipped exactly when its
lower-cased text contains `create database` or contains `use ` anywhere
(not only as a prefix); every other statement is submitted. -/
theorem claim7_migration_filter_amended (setupSql s : List Char) :
    s ∈ migrationStatements setupSql ↔
      s ∈ tokenizeScript setupSql ∧
        ¬(listContains "create database".toList (jsToLower s) = true ∨
          listContains "use ".toList (jsToLower s) = true) := by
  simp [migrationStatements, List.mem_filter, shouldSkipStatement, not_or]

/-! ## Reduction lemmas for the dispatcher -/

/-- `read_query` through the router, as a function of the validator and
gateway outcomes. -/
theorem handleRequest_read_query (ident : Js) (q : List Char)
    (st : ServerState) (env : Env) :
    handleRequest (callToolRequest ident "read_query".toList (queryArgs q)) st env =
      (match validateSqlQuery (Js.str q) QType.select with
      | .error e => (errorEnvelope ident e.code e.message, st, [])
      | .ok _ =>
        match env.gw q [] with
        | .ok rows =>
          ({ id := ident, result := some (textContent (stringifyJs rows)) },
            st, [(q, [])])
        | .error m =>
          (errorEnvelope ident .InternalError ("Database error: ".toList ++ m),
            st, [(q, [])])) := by
  cases hv : validateSqlQuery (Js.str q) QType.select with
  | error e =>
    simp [handleRequest, handleToolCall, toolCallBody, readQueryCase,
      callToolRequest, queryArgs, jsGet, Js.getField, jsLookup, Js.strEq,
      Js.truthy, Js.typeofIsObject, Js.asChars, hv, errorEnvelope]
  | ok u =>
    cases hg : env.gw q [] with
    | ok rows =>
      simp [handleRequest, handleToolCall, toolCallBody, readQueryCase,
        callToolRequest, queryArgs, jsGet, Js.getField, jsLookup, Js.strEq,
        Js.truthy, Js.typeofIsObject, Js.asChars, hv, hg, errorEnvelope]
    | error m =>
      simp [handleRequest, handleToolCall, toolCallBody, readQueryCase,
        callToolRequest, queryArgs, jsGet, Js.getField, jsLookup, Js.strEq,
        Js.truthy, Js.typeofIsObject, Js.asChars, hv, hg, errorEnvelope]

set_option synthInstance.maxHeartbeats 1000000 in
/-- `write_query` through the router, as a function of the validator and
gateway outcomes. -/
theorem handleRequest_write_query (ident : Js) (q : List Char)
    (st : ServerState) (env : Env) :
    handleRequest (callToolRequest ident "write_query".toList (queryArgs q)) st env =
      (match validateSqlQuery (Js.str q) QType.write with
      | .error e => (errorEnvelope ident e.code e.message, st, [])
      | .ok _ =>
        match env.gw q [] with
        | .ok result =>
          ({ id := ident, result := some (textContent (stringifyJs
            (.obj [("affected_rows".toList,
              result.getField "affectedRows".toList)]))) }, st, [(q, [])])
        | .error m =>
          (errorEnvelope ident .InternalError ("Database error: ".toList ++ m),
            st, [(q, [])])) := by
  cases hv : validateSqlQuery (Js.str q) QType.write with
  | error e =>
    simp [handleRequest, handleToolCall, toolCallBody, writeQueryCase,
      callToolRequest, queryArgs, jsGet, Js.getField, jsLookup, Js.strEq,
      Js.truthy, Js.typeofIsObject, Js.asChars, hv, errorEnvelope]
  | ok u =>
    cases hg : env.gw q [] with
    | ok rows =>
      simp [handleRequest, handleToolCall, toolCallBody, writeQueryCase,
        callToolRequest, queryArgs, jsGet, Js.getField, jsLookup, Js.strEq,
        Js.truthy, Js.typeofIsObject, Js.asChars, hv, hg, errorEnvelope]
    | error m =>
      simp [handleRequest, handleToolCall, toolCallBody, writeQueryCase,
        callToolRequest, queryArgs, jsGet, Js.getField, jsLookup, Js.strEq,
        Js.truthy, Js.typeofIsObject, Js.asChars, hv, hg, errorEnvelope]

/-- `create_table` through the router, as a function of the validator
and gateway outcomes. -/
theorem handleRequest_create_table (ident : Js) (q : List Char)
    (st : ServerState) (env : Env) :
    handleRequest (callToolRequest ident "create_table".toList (queryArgs q)) st env =
      (match validateSqlQuery (Js.str q) QType.createTable with
      | .error e => (errorEnvelope ident e.code e.message, st, [])
      | .ok _ =>
        match env.gw q [] with
        | .ok _ =>
          ({ id := ident,
             result := some (textContent "Table created successfully".toList) },
            st, [(q, [])])
        | .error m =>
          (errorEnvelope ident .InternalError ("Database error: ".toList ++ m),
            st, [(q, [])])) := by
  cases hv : validateSqlQuery (Js.str q) QType.createTable with
  | error e =>
    simp [handleRequest, handleToolCall, toolCallBody, createTableCase,
      callToolRequest, queryArgs, jsGet, Js.getField, jsLookup, Js.strEq,
      Js.truthy, Js.typeofIsObject, Js.asChars, hv, errorEnvelope]
  | ok u =>
    cases hg : env.gw q [] with
    | ok rows =>
      simp [handleRequest, handleToolCall, toolCallBody, createTableCase,
        callToolRequest, queryArgs, jsGet, Js.getField, jsLookup, Js.strEq,
        Js.truthy, Js.typeofIsObject, Js.asChars, hv, hg, errorEnvelope]
    | error m =>
      simp [handleRequest, handleToolCall, toolCallBody, createTableCase,
        callToolRequest, queryArgs, jsGet, Js.getField, jsLookup, Js.strEq,
        Js.truthy, Js.typeofIsObject, Js.asChars, hv, hg, errorEnvelope]

/-- `append_insight` through the router: increments the counter by one,
appends the content with the new identifier and the clock value, and
confirms referencing that identifier; no gateway call. -/
theorem handleRequest_append (ident c : Js) (st : ServerState) (env : Env) :
    handleRequest (callToolRequest ident "append_insight".toList
        (insightArgs c)) st env =
      ({ id := ident,
         result := some (textContent ("Insight #".toList ++
           natChars (st.insightCounter + 1) ++ " added to memo".toList)) },
       ⟨st.insights ++ [⟨st.insightCounter + 1, c, env.now⟩],
         st.insightCounter + 1⟩, []) := rfl

/-- Every tool-case response carries the request's identifier. -/
theorem toolCallBody_id (req : McpRequest) (st : ServerState) (env : Env) :
    idEcho req.id (toolCallBody req st env).1 := by
  unfold toolCallBody readQueryCase writeQueryCase createTableCase
    listTablesCase describeTableCase appendInsightCase
  repeat' first | split | dsimp only
  all_goals trivial

/-- The dispatcher (catch block included) echoes the request's
identifier in every response it produces. -/
theorem handleToolCall_id (req : McpRequest) (st : ServerState) (env : Env) :
    idEchoMcp req.id (handleToolCall req st env).1 := by
  have h := toolCallBody_id req st env
  unfold handleToolCall
  rcases hb : toolCallBody req st env with ⟨r, st2, calls⟩
  rw [hb] at h
  cases r with
  | ok resp => simpa [idEcho, idEchoMcp] using h
  | error t => cases t <;> trivial

/-- The router echoes the request's identifier in every response. -/
theorem handleRequest_id (req : McpRequest) (st : ServerState) (env : Env) :
    (handleRequest req st env).1.id = req.id := by
  have h := handleToolCall_id req st env
  unfold handleRequest
  repeat' split
  all_goals try rfl
  all_goals rename_i heq
  all_goals rw [heq] at h
  all_goals simpa [idEchoMcp] using h

/-! ## Claims about the dispatcher and the router -/

/-- Claim C2: a `read_query` whose query the validator rejects is answered
with an `InvalidParams` error envelope; the gateway is never invoked and
the server state is unchanged. -/
theorem claim2_read_query_rejected_not_forwarded (ident : Js) (q : List Char)
    (st : ServerState) (env : Env) (e : McpError)
    (h : validateSqlQuery (Js.str q) QType.select = .error e) :
    (handleRequest (callToolRequest ident "read_query".toList (queryArgs q))
        st env).1.error = some ⟨ErrorCode.InvalidParams, e.message⟩
    ∧ (handleRequest (callToolRequest ident "read_query".toList (queryArgs q))
        st env).1.result = none
    ∧ (handleRequest (callToolRequest ident "read_query".toList (queryArgs q))
        st env).2.2 = []
    ∧ (handleRequest (callToolRequest ident "read_query".toList (queryArgs q))
        st env).2.1 = st := by
  have hc := validateSqlQuery_error_code _ _ _ h
  rw [handleRequest_read_query, h]
  simp [errorEnvelope, hc]

/-- Witness for C2 at the spec's example input `DELETE FROM t`. -/
theorem claim2_witness :
    (handleRequest (callToolRequest (Js.num 1) "read_query".toList
        (queryArgs "DELETE FROM t".toList)) initialState stubEnv).1.error
      = some ⟨ErrorCode.InvalidParams,
          "Only SELECT queries are allowed with read_query".toList⟩
    ∧ (handleRequest (callToolRequest (Js.num 1) "read_query".toList
        (queryArgs "DELETE FROM t".toList)) initialState stubEnv).2.2 = [] :=
  have h := claim2_read_query_rejected_not_forwarded (Js.num 1)
    "DELETE FROM t".toList initialState stubEnv
    ⟨.InvalidParams, "Only SELECT queries are allowed with read_query".toList⟩ rfl
  ⟨h.1, h.2.2.1⟩

/-- Counterexample to C3 as stated: with a failing gateway, a
`list_tables` call is answered by a result envelope flagged `isError` —
its error descriptor is absent, not `InternalError`. -/
theorem claim3_counterexample :
    (handleRequest (callToolRequest (Js.num 1) "list_tables".toList (.obj []))
        initialState (failEnv "boom".toList "db".toList 0)).1.error = none
    ∧ (handleRequest (callToolRequest (Js.num 1) "list_tables".toList (.obj []))
        initialState (failEnv "boom".toList "db".toList 0)).1.result
      = some (isErrorContent "boom".toList) :=
  ⟨rfl, rfl⟩

/-- Claim C3 amended: with a failing gateway, `read_query`, `write_query` and
`create_table` (on validator-accepted queries) answer with an
`InternalError` error envelope carrying a database-error message, while
`list_tables` and `describe_table` answer with a result envelope flagged
`isError` carrying the raw message; in every case the gateway is invoked
exactly once (no retry) and a response envelope is produced (the process
keeps serving). -/
theorem claim3_gateway_failure_amended (ident : Js)
    (qr qw qc tn m db : List Char) (now : Nat) (st : ServerState)
    (hr : validateSqlQuery (.str qr) QType.select = .ok ())
    (hw : validateSqlQuery (.str qw) QType.write = .ok ())
    (hc : validateSqlQuery (.str qc) QType.createTable = .ok ()) :
    (handleRequest (callToolRequest ident "read_query".toList (queryArgs qr))
        st (failEnv m db now)).1.error
      = some ⟨ErrorCode.InternalError, "Database error: ".toList ++ m⟩
    ∧ (handleRequest (callToolRequest ident "read_query".toList (queryArgs qr))
        st (failEnv m db now)).2.2 = [(qr, [])]
    ∧ (handleRequest (callToolRequest ident "write_query".toList (queryArgs qw))
        st (failEnv m db now)).1.error
      = some ⟨ErrorCode.InternalError, "Database error: ".toList ++ m⟩
    ∧ (handleRequest (callToolRequest ident "write_query".toList (queryArgs qw))
        st (failEnv m db now)).2.2 = [(qw, [])]
    ∧ (handleRequest (callToolRequest ident "create_table".toList (queryArgs qc))
        st (failEnv m db now)).1.error
      = some ⟨ErrorCode.InternalError, "Database error: ".toList ++ m⟩
    ∧ (handleRequest (callToolRequest ident "create_table".toList (queryArgs qc))
        st (failEnv m db now)).2.2 = [(qc, [])]
    ∧ (handleRequest (callToolRequest ident "list_tables".toList (.obj []))
        st (failEnv m db now)).1.error = none
    ∧ (handleRequest (callToolRequest ident "list_tables".toList (.obj []))
        st (failEnv m db now)).1.result = some (isErrorContent m)
    ∧ (handleRequest (callToolRequest ident "list_tables".toList (.obj []))
        st (failEnv m db now)).2.2 = [(listTablesQueryText, [.str db])]
    ∧ (handleRequest (callToolRequest ident "describe_table".toList
        (.obj [("table_name".toList, .str tn)])) st (failEnv m db now)).1.error = none
    ∧ (handleRequest (callToolRequest ident "describe_table".toList
        (.obj [("table_name".toList, .str tn)])) st (failEnv m db now)).1.result
      = some (isErrorContent m)
    ∧ (handleRequest (callToolRequest ident "describe_table".toList
        (.obj [("table_name".toList, .str tn)])) st (failEnv m db now)).2.2
      = [(describeTableQueryText, [.str db, .str tn])] := by
  refine ⟨?_, ?_, ?_, ?_, ?_, ?_, rfl, rfl, rfl, rfl, rfl, rfl⟩ <;>
    first
      | (rw [handleRequest_read_query, hr]; rfl)
      | (rw [handleRequest_write_query, hw]; rfl)
      | (rw [handleRequest_create_table, hc]; rfl)

/-- Witness for C3's amended theorem at concrete accepted queries. -/
theorem claim3_witness :
    (handleRequest (callToolRequest (Js.num 1) "read_query".toList
        (queryArgs "SELECT 1".toList)) initialState
        (failEnv "boom".toList "db".toList 0)).1.error
      = some ⟨ErrorCode.InternalError, "Database error: boom".toList⟩
    ∧ (handleRequest (callToolRequest (Js.num 1) "list_tables".toList (.obj []))
        initialState (failEnv "boom".toList "db".toList 0)).1.result
      = some (isErrorContent "boom".toList) :=
  have h := claim3_gateway_failure_amended (Js.num 1) "SELECT 1".toList
    "UPDATE t SET x=1".toList "CREATE TABLE t (id INT)".toList "t".toList
    "boom".toList "db".toList 0 initialState rfl rfl rfl
  ⟨h.1, h.2.2.2.2.2.2.2.1⟩

/-- Claim C4, code-bug evidence: the code's own tool descriptors declare
`table_name` and `insight` required, yet a `describe_table` call with no
arguments is answered by a result envelope flagged `isError` (not an
`InvalidParams` error envelope), and an `append_insight` call whose
arguments lack `insight` succeeds, storing an undefined content. -/
theorem claim4_contract_not_enforced :
    ((jsIndex toolDescriptors 4).getField "inputSchema".toList).getField
        "required".toList = Js.arr [.str "table_name".toList]
    ∧ ((jsIndex toolDescriptors 5).getField "inputSchema".toList).getField
        "required".toList = Js.arr [.str "insight".toList]
    ∧ (handleRequest describeNoArgsRequest initialState stubEnv).1.error = none
    ∧ (handleRequest describeNoArgsRequest initialState stubEnv).1.result
      = some (isErrorContent "Cannot read properties of undefined".toList)
    ∧ (handleRequest describeNoArgsRequest initialState stubEnv).2.2 = []
    ∧ (handleRequest appendNoInsightRequest initialState stubEnv).1.error = none
    ∧ (handleRequest appendNoInsightRequest initialState stubEnv).2.1.insightCounter = 1
    ∧ (handleRequest appendNoInsightRequest initialState stubEnv).2.1.insights
      = [⟨1, Js.undef, 0⟩] :=
  ⟨rfl, rfl, rfl, rfl, rfl, rfl, rfl, rfl⟩

/-- Iterated appends from any state: each call assigns the successor of
the current counter, and the stored identifiers extend accordingly. -/
theorem runAppends_generic (env : Env) (l : List Js) :
    ∀ st : ServerState,
      runAppendsIds env st l = List.range' (st.insightCounter + 1) l.length
      ∧ (runAppends env st l).insightCounter = st.insightCounter + l.length
      ∧ insightIds (runAppends env st l)
        = insightIds st ++ List.range' (st.insightCounter + 1) l.length := by
  induction l with
  | nil => intro st; simp [runAppends, runAppendsIds, List.range']
  | cons c rest ih =>
    intro st
    obtain ⟨h1, h2, h3⟩ := ih
      ⟨st.insights ++ [⟨st.insightCounter + 1, c, env.now⟩], st.insightCounter + 1⟩
    refine ⟨?_, ?_, ?_⟩
    · simp only [runAppendsIds, handleRequest_append, h1, List.length_cons]
      rfl
    · simp only [runAppends, handleRequest_append, h2, List.length_cons]
      omega
    · simp only [runAppends, handleRequest_append]
      rw [h3]
      simp only [insightIds, List.map_append, List.map_cons, List.map_nil,
        List.length_cons]
      rw [List.append_assoc]
      rfl

/-- Claim C8: starting from the initial state, the n-th `append_insight`
assigns identifier n: the assigned identifiers are `1, 2, ..., n`, the
stored log carries exactly those identifiers in order (strictly
increasing, never reused), each confirmation references the assigned
identifier, and three appends yield identifiers 1, 2, 3. -/
theorem claim8_insight_identifiers (env : Env) (l : List Js) :
    runAppendsIds env initialState l = List.range' 1 l.length
    ∧ insightIds (runAppends env initialState l) = List.range' 1 l.length
    ∧ (∀ (ident c : Js) (st : ServerState),
        (handleRequest (callToolRequest ident "append_insight".toList
          (insightArgs c)) st env).1.result
        = some (textContent ("Insight #".toList ++
            natChars (st.insightCounter + 1) ++ " added to memo".toList)))
    ∧ runAppendsIds env initialState
        [Js.str "a".toList, Js.str "b".toList, Js.str "c".toList] = [1, 2, 3] := by
  obtain ⟨h1, _, h3⟩ := runAppends_generic env l initialState
  refine ⟨by simpa [initialState] using h1,
    by simpa [initialState, insightIds] using h3,
    fun ident c st => by rw [handleRequest_append], ?_⟩
  have h4 := (runAppends_generic env
    [Js.str "a".toList, Js.str "b".toList, Js.str "c".toList] initialState).1
  simpa [initialState] using h4

/-- Claim C9: every response produced by the router carries the correlation
identifier of its request — for success and error envelopes alike — and
an unparsable inbound line is answered with identifier `"unknown"` and
code `ParseError`. -/
theorem claim9_response_correlation (st : ServerState) (env : Env) :
    (∀ req : McpRequest,
      (handleLine (.parsed req) st env).1.id = req.id)
    ∧ (∀ m : List Char,
      (handleLine (.unparsable m) st env).1.id = Js.str "unknown".toList
      ∧ (handleLine (.unparsable m) st env).1.error = some ⟨.ParseError, m⟩
      ∧ (handleLine (.unparsable m) st env).1.result = none) :=
  ⟨fun req => handleRequest_id req st env,
   fun _ => ⟨rfl, rfl, rfl⟩⟩

/-- Claim C10: `append_insight` never touches the gateway (for any arguments,
the call trace is empty); with a string argument — the empty string
included — it succeeds without validation, its only state effect is
incrementing the counter and appending the one entry, and the memo
renders the submitted string verbatim (as an exact substring between the
rendered header and the trailing blank line). -/
theorem claim10_append_insight_frame (ident : Js) (s : List Char)
    (st : ServerState) (env : Env) :
    (∀ args : Js,
      (handleRequest (callToolRequest ident "append_insight".toList args)
        st env).2.2 = [])
    ∧ (handleRequest (callToolRequest ident "append_insight".toList
        (insightArgs (.str s))) st env).2.1
      = ⟨st.insights ++ [⟨st.insightCounter + 1, .str s, env.now⟩],
          st.insightCounter + 1⟩
    ∧ (handleRequest (callToolRequest ident "append_insight".toList
        (insightArgs (.str s))) st env).1.error = none
    ∧ (handleRequest (callToolRequest ident "append_insight".toList
        (insightArgs (.str s))) st env).1.result
      = some (textContent ("Insight #".toList ++
          natChars (st.insightCounter + 1) ++ " added to memo".toList))
    ∧ ∃ pre post,
        memoText (st.insights ++ [⟨st.insightCounter + 1, .str s, env.now⟩])
          = pre ++ s ++ post := by
  refine ⟨fun args => by cases args <;> rfl, rfl, rfl, rfl,
    ⟨(st.insights.foldl (fun acc ins => acc ++ insightBlock ins)
        "# Business Insights Memo\n\n".toList) ++
      "## Insight ".toList ++ natChars (st.insightCounter + 1) ++
      "\n".toList ++ "*".toList ++ natChars env.now ++ "*\n\n".toList,
      "\n\n".toList, ?_⟩⟩
  simp [memoText, insightBlock, jsTemplate, List.foldl_append,
    List.append_assoc]

end MySqlMcp

